import Mathlib

/-!
# httping

A shallow embedding of `main.go`: argument validation (`parseArgs`), row
formatting (`HTTPing.SSlice`), the probe loop started by `httpinger` and the
consuming loop of `main`.

Conventions of the embedding.

* `time.Duration` and `int` are 64-bit signed integers in Go; here they are
  `Int`.  No operation of this program overflows on them (comparison,
  `Truncate`, and formatting of the absolute value).
* `time.Time` is the clock reading in nanoseconds.
* Functions of the Go standard library whose result depends on data outside
  the program or that are not integer code (`url.Parse`, `URL.String`,
  `time.ParseDuration`, `Time.Format`) are fields of `Stdlib`; `http.Get` and
  `time.Now` results arrive with the scheduler's actions.
* `time.Duration.String`, `time.Duration.Truncate`, `time.Time.Sub` and
  `strconv.Itoa` are integer code and are written out.
-/

namespace Httping

/-! ## Durations -/

/-- Go `time.Duration`: nanoseconds. -/
abbrev Duration := Int

/-- Go `time.Time`: the clock reading, in nanoseconds. -/
abbrev Time := Int

def Nanosecond : Duration := 1
def Microsecond : Duration := 1000 * Nanosecond
def Millisecond : Duration := 1000 * Microsecond
def Second : Duration := 1000 * Millisecond

/-- The digit written by `byte(digit) + '0'`. -/
def digitChar (d : Nat) : Char :=
  match d % 10 with
  | 0 => '0' | 1 => '1' | 2 => '2' | 3 => '3' | 4 => '4'
  | 5 => '5' | 6 => '6' | 7 => '7' | 8 => '8' | _ => '9'

/-- The loop `for v > 0 { w--; buf[w] = byte(v%10) + '0'; v /= 10 }` shared by
`time.fmtInt` and `strconv.Itoa`; `buf` is the text already written to the
right of position `w`.  The first argument bounds the number of iterations. -/
def fmtDigits : Nat → Nat → List Char → List Char
  | 0, _, buf => buf
  | fuel + 1, v, buf =>
    if v = 0 then buf else fmtDigits fuel (v / 10) (digitChar (v % 10) :: buf)

/-- Go `time.fmtInt`: writes `v` in decimal in front of `buf`. -/
def fmtInt (buf : List Char) (v : Nat) : List Char :=
  if v = 0 then '0' :: buf else fmtDigits v v buf

/-- The loop of Go `time.fmtFrac`: `prec` low digits of `v`, trailing zeros
omitted; returns the text, the remaining value and the `print` flag. -/
def fmtFracLoop : Nat → Nat → Bool → List Char → List Char × Nat × Bool
  | 0, v, print, buf => (buf, v, print)
  | i + 1, v, print, buf =>
    let digit := v % 10
    let print := print || digit != 0
    fmtFracLoop i (v / 10) print (if print then digitChar digit :: buf else buf)

/-- Go `time.fmtFrac`: writes the fraction of `v / 10^prec` in front of `buf`,
omitting trailing zeros and, when the fraction is zero, the decimal point. -/
def fmtFrac (buf : List Char) (v : Nat) (prec : Nat) : List Char × Nat :=
  match fmtFracLoop prec v false buf with
  | (buf, v, print) => (if print then '.' :: buf else buf, v)

/-- Go `time.Duration.format`, the text of `Duration.String`. -/
def durationFormat (d : Duration) : List Char :=
  let u := d.natAbs
  let neg := decide (d < 0)
  if u < 1000000000 then
    if u = 0 then ['0', 's']
    else
      let w :=
        if u < 1000 then
          let r := fmtFrac ['n', 's'] u 0
          fmtInt r.1 r.2
        else if u < 1000000 then
          let r := fmtFrac ['µ', 's'] u 3
          fmtInt r.1 r.2
        else
          let r := fmtFrac ['m', 's'] u 6
          fmtInt r.1 r.2
      if neg then '-' :: w else w
  else
    let r := fmtFrac ['s'] u 9
    let u := r.2
    let w := fmtInt r.1 (u % 60)
    let u := u / 60
    let w :=
      if u > 0 then
        let w := fmtInt ('m' :: w) (u % 60)
        let u := u / 60
        if u > 0 then fmtInt ('h' :: w) u else w
      else w
    if neg then '-' :: w else w

/-- Go `time.Duration.String`. -/
def durationString (d : Duration) : String := String.mk (durationFormat d)

/-- Go `time.Duration.Truncate`: `d - d%m` with Go's truncated remainder,
`d` itself when `m <= 0`. -/
def durationTruncate (d m : Duration) : Duration :=
  if m ≤ 0 then d else d - d.tmod m

/-- Go `strconv.Itoa`: decimal text, with a leading `-` for a negative number. -/
def Itoa (i : Int) : String :=
  if i < 0 then String.mk ('-' :: fmtInt [] i.natAbs) else String.mk (fmtInt [] i.natAbs)

/-- The bounds of a 64-bit signed integer. -/
def minDuration : Duration := -(2 ^ 63)
def maxDuration : Duration := 2 ^ 63 - 1

/-- Go `time.Time.Sub` on clock readings: the difference, saturated to the
range of `Duration`. -/
def timeSub (t u : Time) : Duration :=
  if t - u > maxDuration then maxDuration
  else if t - u < minDuration then minDuration
  else t - u

/-! ## The standard library calls the program makes -/

/-- Go `url.URL`, of which the program reads `Scheme` and calls `String`. -/
structure URL where
  Scheme : String
  rest : String
  deriving DecidableEq, Repr

/-- The standard library functions taken as given. -/
structure Stdlib where
  /-- Go `url.Parse`: the URL, or the error. -/
  urlParse : String → Except String URL
  /-- Go `(*url.URL).String`. -/
  urlString : URL → String
  /-- Go `time.ParseDuration`: the pair `(d, err)` it returns. -/
  parseDuration : String → Duration × Option String
  /-- Go `Time.Format(time.StampMilli)`. -/
  formatStampMilli : Time → String

/-! ## Globals -/

def MinimumFreq : Duration := 500 * Millisecond

def header : List String := ["timestamp", "status_code", "latency"]

/-! ## Samples -/

structure HTTPing where
  Timestamp : Time
  StatusCode : Int
  Latency : Duration
  deriving DecidableEq, Repr

def HTTPing.SSlice (lib : Stdlib) (hp : HTTPing) : List String :=
  [lib.formatStampMilli hp.Timestamp,
   Itoa hp.StatusCode,
   durationString (durationTruncate hp.Latency Millisecond)]

/-! ## Argument validation -/

/-- The function `parseArgs` on `os.Args` (program name included): the triple
`(url, d, err)` it returns. -/
def parseArgs (lib : Stdlib) (args : List String) : String × Duration × Option String :=
  let d : Duration := 0
  if args.length ≠ 3 then
    ("", d, some "two args required: httping <url> <frequency> (1s, 500ms, etc.)")
  else
    match lib.urlParse (args.getD 1 "") with
    | .error _ => ("", d, some (args.getD 1 "" ++ " is not a valid url"))
    | .ok u =>
      if u.Scheme = "" then
        ("", d, some "protocol scheme required")
      else
        match lib.parseDuration (args.getD 2 "") with
        | (d, some _) => ("", d, some (args.getD 2 "" ++ " is not a valid duration"))
        | (d, none) =>
          if d < MinimumFreq then
            ("", d, some (durationString d ++ " is below the minimum frequency of "
              ++ durationString MinimumFreq))
          else
            (lib.urlString u, d, none)

/-! ## The probe loop and the consuming loop

The program has two threads of control: the goroutine started by `httpinger`
and `main`, which consumes the channel `hpCh` (capacity 1).  A scheduler
chooses, step by step, which of them moves; a move that is not possible in the
current state (a send on a full channel, a receive on an empty open channel, a
tick while the goroutine is not at its `select`) leaves the state unchanged.

* A tick is one move: the two clock readings, the request, the log line and
  the construction of the sample touch nothing that `main` reads.
* A turn of the loop of `main` is one move: the receive, `writer.Write` and
  `writer.Flush`.
* `csv.Writer` keeps the records it is given in a buffer (of 4096 bytes, far
  above the header and a row) until `Flush`; `fmt.Println` writes to standard
  output at once.  The write of the header into that buffer cannot fail, so the
  exit on its error is not modelled.
* A nil pointer dereference in the goroutine is not recovered: the process
  ends with status 2.  `os.Exit(1)` and the return of `main` end it with
  status 1 and 0.  Nothing moves once the process has ended.
* The validated `freq` is at least 500 ms, so `time.NewTicker(freq)` is given a
  positive period; when the ticks arrive is the scheduler's choice.
-/

/-- Go `*http.Response`, of which the program reads `StatusCode`. -/
structure Response where
  StatusCode : Int
  deriving DecidableEq, Repr

/-- The pair `(resp, err)` returned by `http.Get`; `none` stands for `nil`. -/
structure GetResult where
  resp : Option Response
  err : Option String
  deriving DecidableEq, Repr

/-- Where the goroutine started by `httpinger` stands. -/
inductive Prober
  /-- Blocked in the `select`. -/
  | selecting
  /-- The sample is built; blocked in `hpCh <- hp`. -/
  | sending (hp : HTTPing)
  /-- After `close(hpCh); return`. -/
  | returned
  /-- Stopped by the nil pointer dereference of `resp.StatusCode`. -/
  | panicked
  deriving DecidableEq, Repr

/-- One write on standard output. -/
inductive Out
  /-- A line written by `fmt.Println`. -/
  | line (s : String)
  /-- A CSV record that left the buffer of `csv.Writer`. -/
  | record (fields : List String)
  deriving DecidableEq, Repr

/-- The moves of the scheduler. -/
inductive Action
  /-- The `select` takes `<-ticker.C`: `time.Now()` reads `start`, `http.Get`
  returns `r`, the second `time.Now()` reads `fin`. -/
  | tick (start : Time) (r : GetResult) (fin : Time)
  /-- The `select` takes `<-ctx.Done()`. -/
  | done
  /-- The send `hpCh <- hp` completes. -/
  | send
  /-- The `range` over `hpCh` in `main` takes its next turn. -/
  | recv
  deriving DecidableEq, Repr

/-- State of the process.  `emitted`, `received` and `ticks` record history:
the samples sent on `hpCh`, the samples `main` took from it, and the results
of `http.Get` on the ticks the `select` has taken. -/
structure Proc where
  /-- Whether `httpinger` has been called. -/
  started : Bool
  /-- Arguments of `httpinger`. -/
  u : String
  freq : Duration
  prober : Prober
  /-- Samples in the buffer of `hpCh`. -/
  hpCh : List HTTPing
  /-- Whether `hpCh` is closed. -/
  closed : Bool
  /-- Records written to the `csv.Writer` and not flushed yet. -/
  pending : List (List String)
  stdout : List Out
  /-- Errors passed to `log.Println`. -/
  log : List String
  /-- Exit status, once the process has ended. -/
  exit : Option Nat
  emitted : List HTTPing
  received : List HTTPing
  ticks : List GetResult
  deriving DecidableEq, Repr

/-- The process before `main` runs. -/
def Proc.boot : Proc :=
  { started := false, u := "", freq := 0, prober := .selecting, hpCh := [], closed := false,
    pending := [], stdout := [], log := [], exit := none,
    emitted := [], received := [], ticks := [] }

/-- One move of the goroutine of `httpinger`. -/
def httpinger (s : Proc) : Action → Proc
  | .tick start r fin =>
    match s.prober with
    | .selecting =>
      let s := { s with ticks := s.ticks ++ [r] }
      let s := match r.err with
        | some e => { s with log := s.log ++ [e] }
        | none => s
      match r.resp with
      | none => { s with prober := .panicked, exit := some 2 }
      | some resp =>
        let hp : HTTPing :=
          { Timestamp := start, StatusCode := resp.StatusCode, Latency := timeSub fin start }
        { s with prober := .sending hp }
    | _ => s
  | .done =>
    match s.prober with
    | .selecting => { s with closed := true, prober := .returned }
    | _ => s
  | .send =>
    match s.prober with
    | .sending hp =>
      if s.hpCh.length < 1 then
        { s with hpCh := s.hpCh ++ [hp], emitted := s.emitted ++ [hp], prober := .selecting }
      else s
    | _ => s
  | .recv => s

/-- One turn of `for hp := range hpCh` in `main`, and what follows the loop. -/
def mainLoop (lib : Stdlib) (s : Proc) : Proc :=
  match s.hpCh with
  | hp :: rest =>
    { s with
      hpCh := rest
      received := s.received ++ [hp]
      stdout := s.stdout ++ (s.pending ++ [hp.SSlice lib]).map Out.record
      pending := [] }
  | [] =>
    if s.closed then { s with stdout := s.stdout ++ [Out.line ""], exit := some 0 } else s

/-- The function `main` up to and including the call of `httpinger`. -/
def main (lib : Stdlib) (args : List String) : Proc :=
  match parseArgs lib args with
  | (_, _, some err) => { Proc.boot with stdout := [Out.line err], exit := some 1 }
  | (u, freq, none) => { Proc.boot with pending := [header], started := true, u := u, freq := freq }

/-- One move of the process. -/
def step (lib : Stdlib) (s : Proc) (a : Action) : Proc :=
  if s.exit.isSome then s
  else
    match a with
    | .recv => mainLoop lib s
    | a => httpinger s a

/-- The process after a schedule. -/
def run (lib : Stdlib) (s : Proc) (acts : List Action) : Proc :=
  acts.foldl (step lib) s

/-- A table of standard library results: `url.Parse` and `time.ParseDuration`
on a few strings, every other string being rejected. -/
def tableLib : Stdlib where
  urlParse := fun s =>
    if s = "https://example.com" then .ok { Scheme := "https", rest := "//example.com" }
    else if s = "example.com" then .ok { Scheme := "", rest := "example.com" }
    else .error "parse error"
  urlString := fun u => if u.Scheme = "" then u.rest else u.Scheme ++ ":" ++ u.rest
  parseDuration := fun s =>
    if s = "1s" then (1000000000, none)
    else if s = "500ms" then (500000000, none)
    else if s = "100ms" then (100000000, none)
    else if s = "0" then (0, none)
    else if s = "-1s" then (-1000000000, none)
    else (0, some "time: invalid duration")
  formatStampMilli := fun t => Itoa t

/-! ## The validation order, as the specification words it -/

/-- The five checks of the command line. -/
inductive Check
  | argCount
  | urlSyntax
  | scheme
  | durationSyntax
  | durationMinimum
  deriving DecidableEq, Repr

/-- The fixed order of the checks: argument count, URL syntax, missing scheme,
duration syntax, duration below minimum. -/
def Check.order : List Check :=
  [.argCount, .urlSyntax, .scheme, .durationSyntax, .durationMinimum]

/-- Whether an argument list violates a check, each check taken on its own: a
URL that does not parse has no scheme, a frequency that does not parse is not
a duration of at least the minimum. -/
def Check.violated (lib : Stdlib) (args : List String) : Check → Bool
  | .argCount => decide (args.length ≠ 3)
  | .urlSyntax =>
    match lib.urlParse (args.getD 1 "") with
    | .ok _ => false
    | .error _ => true
  | .scheme =>
    match lib.urlParse (args.getD 1 "") with
    | .ok u => decide (u.Scheme = "")
    | .error _ => true
  | .durationSyntax => (lib.parseDuration (args.getD 2 "")).2.isSome
  | .durationMinimum =>
    match lib.parseDuration (args.getD 2 "") with
    | (d, none) => decide (d < MinimumFreq)
    | (_, some _) => true

/-- The message of each check. -/
def Check.message (lib : Stdlib) (args : List String) : Check → String
  | .argCount => "two args required: httping <url> <frequency> (1s, 500ms, etc.)"
  | .urlSyntax => args.getD 1 "" ++ " is not a valid url"
  | .scheme => "protocol scheme required"
  | .durationSyntax => args.getD 2 "" ++ " is not a valid duration"
  | .durationMinimum =>
    durationString (lib.parseDuration (args.getD 2 "")).1
      ++ " is below the minimum frequency of " ++ durationString MinimumFreq

/-! ## Vocabulary of the statements about runs -/

/-- The sample the goroutine holds while blocked in its send. -/
def inFlight : Prober → List HTTPing
  | .sending hp => [hp]
  | _ => []

/-- A move that is not a cancellation and, when it is a tick, one whose
request succeeds: a response and no error. -/
def Action.successful : Action → Bool
  | .tick _ r _ => r.err.isNone && r.resp.isSome
  | .done => false
  | .send => true
  | .recv => true

/-- The status code of the response of a request, 0 when there is none. -/
def GetResult.code (r : GetResult) : Int :=
  match r.resp with
  | some resp => resp.StatusCode
  | none => 0

/-- The schedule in which every tick is followed at once by its send and by
the receive in `main`; a tick is given as `(start, status code, fin)`. -/
def rounds : List (Time × Int × Time) → List Action
  | [] => []
  | (start, code, fin) :: rest =>
    .tick start { resp := some { StatusCode := code }, err := none } fin
      :: .send :: .recv :: rounds rest

/-- The sample built on a tick `(start, status code, fin)` whose request
succeeds. -/
def sampleOf (t : Time × Int × Time) : HTTPing :=
  { Timestamp := t.1, StatusCode := t.2.1, Latency := timeSub t.2.2 t.1 }

/-- No cancellation has been observed, nothing has failed: the process runs,
`hpCh` is open and every request so far returned a response and no error. -/
structure Healthy (s : Proc) : Prop where
  running : s.exit = none
  open_ : s.closed = false
  probing : s.prober = .selecting ∨ ∃ hp, s.prober = .sending hp
  ticks_ok : ∀ r ∈ s.ticks, r.err = none ∧ r.resp.isSome = true

/-- The clock readings of a schedule, in the order `time.Now()` takes them. -/
def clock : List Action → List Time
  | [] => []
  | .tick start _ fin :: rest => start :: fin :: clock rest
  | .done :: rest => clock rest
  | .send :: rest => clock rest
  | .recv :: rest => clock rest

/-- The timestamps of the samples emitted so far, followed by that of the
sample being sent. -/
def stamps (s : Proc) : List Time :=
  (s.emitted ++ inFlight s.prober).map (fun hp => hp.Timestamp)

/-- What holds of the process in every state that a run reaches after `main`
has called `httpinger`. -/
structure Inv (lib : Stdlib) (s : Proc) : Prop where
  started : s.started = true
  cap : s.hpCh.length ≤ 1
  fifo : s.emitted = s.received ++ s.hpCh
  closed_iff : s.closed = true ↔ s.prober = .returned
  exit_cases : s.exit = none ∨ (s.exit = some 0 ∧ s.closed = true ∧ s.hpCh = []) ∨
    (s.exit = some 2 ∧ s.prober = .panicked)
  panicked_exit : s.prober = .panicked → s.exit = some 2
  pending_eq : s.pending = if s.received = [] then [header] else []
  stdout_eq : s.stdout =
    (if s.received = [] then []
      else (header :: s.received.map (HTTPing.SSlice lib)).map Out.record)
    ++ (if s.exit = some 0 then [Out.line ""] else [])
  codes : (s.ticks.filterMap (fun r => r.resp)).map (fun resp => resp.StatusCode)
    = (s.emitted ++ inFlight s.prober).map (fun hp => hp.StatusCode)
  log_eq : s.log = s.ticks.filterMap (fun r => r.err)
  count : s.ticks.length
    = s.emitted.length + (inFlight s.prober).length + (if s.prober = .panicked then 1 else 0)

/-! ## Formatting: evaluations -/

theorem durationString_examples :
    durationString 123000000 = "123ms" ∧
    durationString 1204000000 = "1.204s" ∧
    durationString 0 = "0s" ∧
    durationString (-1500) = "-1.5µs" ∧
    durationString 999 = "999ns" ∧
    durationString 3723000000000 = "1h2m3s" ∧
    durationString 60000000000 = "1m0s" := by
  decide

theorem Itoa_examples : Itoa 200 = "200" ∧ Itoa 0 = "0" ∧ Itoa (-7) = "-7" := by
  decide

/-! ## Argument validation: theorems -/

theorem durationString_MinimumFreq : durationString MinimumFreq = "500ms" := by decide

theorem step_of_exit (lib : Stdlib) (s : Proc) (a : Action) (h : s.exit.isSome = true) :
    step lib s a = s := by
  simp [step, h]

theorem run_of_exit (lib : Stdlib) (s : Proc) (acts : List Action) (h : s.exit.isSome = true) :
    run lib s acts = s := by
  induction acts with
  | nil => rfl
  | cons a acts ih => simpa [run, step_of_exit lib s a h] using ih

theorem main_of_error (lib : Stdlib) (args : List String) (e : String)
    (h : (parseArgs lib args).2.2 = some e) :
    main lib args = { Proc.boot with stdout := [Out.line e], exit := some 1 } := by
  unfold main
  rcases hp : parseArgs lib args with ⟨u, d, err⟩
  rw [hp] at h
  simp only at h
  subst h
  rfl

theorem main_of_ok (lib : Stdlib) (args : List String) (u : String) (d : Duration)
    (h : parseArgs lib args = (u, d, none)) :
    main lib args =
      { Proc.boot with pending := [header], started := true, u := u, freq := d } := by
  unfold main
  rw [h]

/-- C1: when the frequency argument parses as a duration below 500 ms (zero and
negative durations included), `parseArgs` returns an error, and in every
schedule `main` has printed that error and exited with status 1 with
`httpinger` never started and no tick taken, no sample emitted or received. -/
theorem below_minimum_fails_before_probing (lib : Stdlib) (args : List String)
    (f : String) (d : Duration)
    (hf : args.get? 2 = some f) (hd : lib.parseDuration f = (d, none))
    (hlt : d < 500 * Millisecond) :
    ∃ e, (parseArgs lib args).2.2 = some e ∧
      ∀ acts : List Action,
        (run lib (main lib args) acts).exit = some 1 ∧
        (run lib (main lib args) acts).started = false ∧
        (run lib (main lib args) acts).ticks = [] ∧
        (run lib (main lib args) acts).emitted = [] ∧
        (run lib (main lib args) acts).received = [] ∧
        (run lib (main lib args) acts).stdout = [Out.line e] := by
  have herr : ∃ e, (parseArgs lib args).2.2 = some e := by
    unfold parseArgs
    by_cases hlen : args.length = 3
    · have h2 : args.getD 2 "" = f := by
        simp [List.getD, ← List.get?_eq_getElem?, hf]
      simp only [hlen, ne_eq, not_true_eq_false, if_false, h2, hd]
      cases lib.urlParse (args.getD 1 "") with
      | error _ => exact ⟨_, rfl⟩
      | ok u =>
        by_cases hs : u.Scheme = ""
        · simp [hs]
        · have hlt2 : d < MinimumFreq := hlt
          simp [hs, hlt2]
    · simp [hlen]
  obtain ⟨e, he⟩ := herr
  refine ⟨e, he, fun acts => ?_⟩
  have hrun := run_of_exit lib { Proc.boot with stdout := [Out.line e], exit := some 1 } acts rfl
  rw [main_of_error lib args e he, hrun]
  simp [Proc.boot]

/-- Witness of C1: `httping https://example.com 100ms`. -/
theorem below_minimum_fails_before_probing_witness :
    ∃ e, (parseArgs tableLib ["httping", "https://example.com", "100ms"]).2.2 = some e ∧
      ∀ acts : List Action,
        (run tableLib (main tableLib ["httping", "https://example.com", "100ms"]) acts).exit
          = some 1 ∧
        (run tableLib (main tableLib ["httping", "https://example.com", "100ms"]) acts).started
          = false ∧
        (run tableLib (main tableLib ["httping", "https://example.com", "100ms"]) acts).ticks
          = [] ∧
        (run tableLib (main tableLib ["httping", "https://example.com", "100ms"]) acts).emitted
          = [] ∧
        (run tableLib (main tableLib ["httping", "https://example.com", "100ms"]) acts).received
          = [] ∧
        (run tableLib (main tableLib ["httping", "https://example.com", "100ms"]) acts).stdout
          = [Out.line e] :=
  below_minimum_fails_before_probing tableLib ["httping", "https://example.com", "100ms"]
    "100ms" 100000000 rfl rfl (by decide)

/-- C2: with exactly two arguments, a URL argument that parses without a
scheme makes `parseArgs` fail with the message "protocol scheme required". -/
theorem missing_scheme_message (lib : Stdlib) (prog a f : String) (u : URL)
    (hu : lib.urlParse a = .ok u) (hs : u.Scheme = "") :
    parseArgs lib [prog, a, f] = ("", 0, some "protocol scheme required") := by
  simp [parseArgs, hu, hs]

/-- Witness of C2: `httping example.com 1s`. -/
theorem missing_scheme_message_witness :
    parseArgs tableLib ["httping", "example.com", "1s"]
      = ("", 0, some "protocol scheme required") :=
  missing_scheme_message tableLib "httping" "example.com" "1s"
    { Scheme := "", rest := "example.com" } rfl rfl


theorem length_eq_three {α : Type} (l : List α) (h : l.length = 3) :
    ∃ a b c, l = [a, b, c] := by
  match l, h with
  | [a, b, c], _ => exact ⟨a, b, c, rfl⟩

theorem parseArgs_three (lib : Stdlib) (prog a f : String) :
    parseArgs lib [prog, a, f] =
      match lib.urlParse a with
      | .error _ => ("", 0, some (a ++ " is not a valid url"))
      | .ok u =>
        if u.Scheme = "" then ("", 0, some "protocol scheme required")
        else
          match lib.parseDuration f with
          | (d, some _) => ("", d, some (f ++ " is not a valid duration"))
          | (d, none) =>
            if d < MinimumFreq then
              ("", d, some (durationString d ++ " is below the minimum frequency of "
                ++ durationString MinimumFreq))
            else (lib.urlString u, d, none) := by
  rfl

/-- C3: `parseArgs` returns no error exactly when `os.Args` holds the program
name and two arguments, the first parses as a URL with a non-empty scheme and
the second parses as a duration `d` with `d >= 500 ms`; it then returns
`u.String()` and exactly `d`; the bound is 500000000 ns, itself accepted. -/
theorem parseArgs_ok_iff (lib : Stdlib) (args : List String) :
    ((parseArgs lib args).2.2 = none ↔
      ∃ prog a f u d, args = [prog, a, f] ∧ lib.urlParse a = .ok u ∧ u.Scheme ≠ "" ∧
        lib.parseDuration f = (d, none) ∧ 500 * Millisecond ≤ d) ∧
    (∀ prog a f u d, args = [prog, a, f] → lib.urlParse a = .ok u → u.Scheme ≠ "" →
        lib.parseDuration f = (d, none) → 500 * Millisecond ≤ d →
        parseArgs lib args = (lib.urlString u, d, none)) ∧
    500 * Millisecond = (500000000 : Int) := by
  have hsucc : ∀ prog a f u d, args = [prog, a, f] → lib.urlParse a = .ok u →
      u.Scheme ≠ "" → lib.parseDuration f = (d, none) → 500 * Millisecond ≤ d →
      parseArgs lib args = (lib.urlString u, d, none) := by
    intro prog a f u d hargs hu hs hd hmin
    subst hargs
    have hmin2 : ¬ d < MinimumFreq := not_lt.mpr hmin
    simp [parseArgs, hu, hs, hd, hmin2]
  refine ⟨⟨fun h => ?_, fun h => ?_⟩, hsucc, by decide⟩
  · by_cases hlen : args.length = 3
    · obtain ⟨prog, a, f, rfl⟩ := length_eq_three args hlen
      simp only [parseArgs, List.length_cons, List.length_nil, ne_eq] at h
      simp only [List.getD_cons_succ, List.getD_cons_zero] at h
      cases hu : lib.urlParse a with
      | error e => simp [hu] at h
      | ok u =>
        by_cases hs : u.Scheme = ""
        · simp [hu, hs] at h
        · rcases hd : lib.parseDuration f with ⟨d, err⟩
          cases err with
          | some e => simp [hu, hs, hd] at h
          | none =>
            by_cases hmin : d < MinimumFreq
            · simp [hu, hs, hd, hmin] at h
            · exact ⟨prog, a, f, u, d, rfl, hu, hs, hd, not_lt.mp hmin⟩
    · simp [parseArgs, hlen] at h
  · obtain ⟨prog, a, f, u, d, hargs, hu, hs, hd, hmin⟩ := h
    rw [hsucc prog a f u d hargs hu hs hd hmin]

/-- Witness of C3: `httping https://example.com 500ms` is accepted with the
duration 500 ms. -/
theorem parseArgs_ok_iff_witness :
    parseArgs tableLib ["httping", "https://example.com", "500ms"]
      = ("https://example.com", 500000000, none) :=
  (parseArgs_ok_iff tableLib ["httping", "https://example.com", "500ms"]).2.1
    "httping" "https://example.com" "500ms" { Scheme := "https", rest := "//example.com" }
    500000000 rfl rfl (by decide) rfl (by decide)

/-- C10: the error of `parseArgs` is the message of the first check, in the
order argument count, URL syntax, missing scheme, duration syntax, duration
below minimum, that the argument list violates (no error when it violates
none); whenever an error is returned the returned URL string is empty; and
whenever the URL argument of a two-argument list parses without a scheme and
the frequency parses below the minimum, as `example.com 100ms` does, the
message is "protocol scheme required". -/
theorem parseArgs_reports_first_violation (lib : Stdlib) (args : List String) :
    (parseArgs lib args).2.2
        = (Check.order.find? (Check.violated lib args)).map (Check.message lib args) ∧
    ((parseArgs lib args).2.2 ≠ none → (parseArgs lib args).1 = "") ∧
    (∀ prog a f u d, args = [prog, a, f] → lib.urlParse a = .ok u → u.Scheme = "" →
        lib.parseDuration f = (d, none) → d < MinimumFreq →
        Check.violated lib args .scheme = true ∧
        Check.violated lib args .durationMinimum = true ∧
        (parseArgs lib args).2.2 = some "protocol scheme required") := by
  refine ⟨?_, ?_, ?_⟩
  · by_cases hlen : args.length = 3
    · obtain ⟨prog, a, f, rfl⟩ := length_eq_three args hlen
      simp only [parseArgs_three, Check.order, List.find?, Check.violated,
        List.length_cons, List.length_nil, ne_eq, List.getD_cons_succ, List.getD_cons_zero]
      cases hu : lib.urlParse a with
      | error e => simp [Check.message]
      | ok u =>
        by_cases hs : u.Scheme = ""
        · simp [hs, Check.message]
        · rcases hd : lib.parseDuration f with ⟨d, err⟩
          cases err with
          | some e => simp [hs, Check.message]
          | none =>
            by_cases hmin : d < MinimumFreq
            · simp [hs, hmin, Check.message, hd]
            · simp [hs, hmin]
    · simp [parseArgs, Check.order, List.find?, Check.violated, Check.message, hlen]
  · intro h
    by_cases hlen : args.length = 3
    · obtain ⟨prog, a, f, rfl⟩ := length_eq_three args hlen
      rw [parseArgs_three] at h ⊢
      cases hu : lib.urlParse a with
      | error e => simp
      | ok u =>
        by_cases hs : u.Scheme = ""
        · simp [hs]
        · rcases hd : lib.parseDuration f with ⟨d, err⟩
          cases err with
          | some e => simp [hs]
          | none =>
            by_cases hmin : d < MinimumFreq
            · simp [hs, hmin]
            · simp [hu, hs, hd, hmin] at h
    · simp [parseArgs, hlen]
  · intro prog a f u d hargs hu hs hd hmin
    subst hargs
    simp [parseArgs, Check.violated, hu, hs, hd, hmin]

/-- Witness of C10: `httping example.com 100ms` violates the scheme check and
the minimum, and the message is that of the scheme check. -/
theorem parseArgs_reports_first_violation_witness :
    Check.violated tableLib ["httping", "example.com", "100ms"] .scheme = true ∧
    Check.violated tableLib ["httping", "example.com", "100ms"] .durationMinimum = true ∧
    (parseArgs tableLib ["httping", "example.com", "100ms"]).2.2
      = some "protocol scheme required" :=
  (parseArgs_reports_first_violation tableLib ["httping", "example.com", "100ms"]).2.2
    "httping" "example.com" "100ms" { Scheme := "", rest := "example.com" } 100000000
    rfl rfl rfl rfl (by decide)


/-! ## Runs: invariants -/

theorem run_nil (lib : Stdlib) (s : Proc) : run lib s [] = s := rfl

theorem run_cons (lib : Stdlib) (s : Proc) (a : Action) (acts : List Action) :
    run lib s (a :: acts) = run lib (step lib s a) acts := rfl

theorem run_append (lib : Stdlib) (s : Proc) (xs ys : List Action) :
    run lib s (xs ++ ys) = run lib (run lib s xs) ys := by
  simp [run, List.foldl_append]

theorem inv_main (lib : Stdlib) (args : List String) (u : String) (d : Duration)
    (h : parseArgs lib args = (u, d, none)) : Inv lib (main lib args) := by
  rw [main_of_ok lib args u d h]
  constructor <;> simp [Proc.boot, inFlight]

theorem inv_mainLoop (lib : Stdlib) (s : Proc) (h : Inv lib s) (hrun : s.exit = none) :
    Inv lib (mainLoop lib s) := by
  obtain ⟨h1, h2, h3, h4, h5, h6, h7, h8, h9, h10, h11⟩ := h
  unfold mainLoop
  cases hq : s.hpCh with
  | nil =>
    by_cases hc : s.closed = true
    · simp only [hc, if_true]
      constructor <;> simp_all
    · simp only [hc, Bool.false_eq_true, if_false]
      exact ⟨h1, h2, h3, h4, h5, h6, h7, h8, h9, h10, h11⟩
  | cons hp rest =>
    have hrest : rest = [] := by
      rw [hq] at h2
      simpa using h2
    subst hrest
    constructor
    · simpa using h1
    · simp
    · simp [h3, hq]
    · simpa using h4
    · left; simpa using hrun
    · intro hp2
      have := h6 (by simpa using hp2)
      simp [hrun] at this
    · simp
    · by_cases hr : s.received = []
      · simp [h8, h7, hr, hrun]
      · simp [h8, h7, hr, hrun]
    · simpa using h9
    · simpa using h10
    · simpa using h11


theorem inv_httpinger (lib : Stdlib) (s : Proc) (a : Action) (h : Inv lib s)
    (hrun : s.exit = none) : Inv lib (httpinger s a) := by
  obtain ⟨h1, h2, h3, h4, h5, h6, h7, h8, h9, h10, h11⟩ := h
  cases a with
  | recv => exact ⟨h1, h2, h3, h4, h5, h6, h7, h8, h9, h10, h11⟩
  | done =>
    unfold httpinger
    cases hp : s.prober with
    | selecting => constructor <;> simp_all [inFlight]
    | sending hp0 => exact ⟨h1, h2, h3, h4, h5, h6, h7, h8, h9, h10, h11⟩
    | returned => exact ⟨h1, h2, h3, h4, h5, h6, h7, h8, h9, h10, h11⟩
    | panicked => exact ⟨h1, h2, h3, h4, h5, h6, h7, h8, h9, h10, h11⟩
  | send =>
    unfold httpinger
    cases hp : s.prober with
    | selecting => exact ⟨h1, h2, h3, h4, h5, h6, h7, h8, h9, h10, h11⟩
    | returned => exact ⟨h1, h2, h3, h4, h5, h6, h7, h8, h9, h10, h11⟩
    | panicked => exact ⟨h1, h2, h3, h4, h5, h6, h7, h8, h9, h10, h11⟩
    | sending hp0 =>
      simp only
      by_cases hfull : s.hpCh.length < 1
      · have hq : s.hpCh = [] := by
          cases hq : s.hpCh with
          | nil => rfl
          | cons x xs => simp [hq] at hfull
        simp only [hfull, if_true]
        constructor <;> simp_all [inFlight]
      · simp only [hfull, if_false]
        exact ⟨h1, h2, h3, h4, h5, h6, h7, h8, h9, h10, h11⟩
  | tick start r fin =>
    unfold httpinger
    cases hp : s.prober with
    | sending hp0 => exact ⟨h1, h2, h3, h4, h5, h6, h7, h8, h9, h10, h11⟩
    | returned => exact ⟨h1, h2, h3, h4, h5, h6, h7, h8, h9, h10, h11⟩
    | panicked => exact ⟨h1, h2, h3, h4, h5, h6, h7, h8, h9, h10, h11⟩
    | selecting =>
      rcases r with ⟨resp, err⟩
      cases resp with
      | none =>
        cases err with
        | none => constructor <;> simp_all [inFlight]
        | some e => constructor <;> simp_all [inFlight]
      | some rp =>
        cases err with
        | none => constructor <;> simp_all [inFlight]
        | some e => constructor <;> simp_all [inFlight]

theorem inv_step (lib : Stdlib) (s : Proc) (a : Action) (h : Inv lib s) :
    Inv lib (step lib s a) := by
  unfold step
  by_cases hx : s.exit.isSome = true
  · simpa [hx] using h
  · have hrun : s.exit = none := by
      cases he : s.exit with
      | none => rfl
      | some n => simp [he] at hx
    simp only [hx, Bool.false_eq_true, if_false]
    cases a with
    | recv => exact inv_mainLoop lib s h hrun
    | done => exact inv_httpinger lib s _ h hrun
    | send => exact inv_httpinger lib s _ h hrun
    | tick start r fin => exact inv_httpinger lib s _ h hrun

theorem inv_run (lib : Stdlib) (acts : List Action) (s : Proc) (h : Inv lib s) :
    Inv lib (run lib s acts) := by
  induction acts generalizing s with
  | nil => exact h
  | cons a acts ih => exact ih _ (inv_step lib s a h)


/-! ## Cancellation -/

theorem step_of_returned (lib : Stdlib) (s : Proc) (a : Action) (hp : s.prober = .returned)
    (ha : a ≠ .recv) : step lib s a = s := by
  unfold step
  by_cases hx : s.exit.isSome = true
  · simp [hx]
  · simp only [hx, Bool.false_eq_true, if_false]
    cases a with
    | recv => exact absurd rfl ha
    | done => simp [httpinger, hp]
    | send => simp [httpinger, hp]
    | tick start r fin => simp [httpinger, hp]

theorem step_closed (lib : Stdlib) (s : Proc) (a : Action) (h : Inv lib s)
    (hc : s.closed = true) :
    (step lib s a).closed = true ∧ (step lib s a).emitted = s.emitted ∧
      (step lib s a).ticks = s.ticks := by
  have hp : s.prober = .returned := h.closed_iff.mp hc
  by_cases ha : a = .recv
  · subst ha
    unfold step
    by_cases hx : s.exit.isSome = true
    · simp [hx, hc]
    · simp only [hx, Bool.false_eq_true, if_false]
      unfold mainLoop
      cases hq : s.hpCh with
      | nil => simp [hc]
      | cons x xs => simp [hc]
  · rw [step_of_returned lib s a hp ha]
    exact ⟨hc, rfl, rfl⟩

theorem run_closed (lib : Stdlib) (more : List Action) (s : Proc) (h : Inv lib s)
    (hc : s.closed = true) :
    (run lib s more).closed = true ∧ (run lib s more).emitted = s.emitted ∧
      (run lib s more).ticks = s.ticks := by
  induction more generalizing s with
  | nil => exact ⟨hc, rfl, rfl⟩
  | cons a more ih =>
    obtain ⟨h1, h2, h3⟩ := step_closed lib s a h hc
    obtain ⟨k1, k2, k3⟩ := ih (step lib s a) (inv_step lib s a h) h1
    rw [run_cons]
    exact ⟨k1, k2.trans h2, k3.trans h3⟩

theorem exited_ok (lib : Stdlib) (s : Proc) (h : Inv lib s) (he : s.exit = some 0) :
    s.stdout.getLast? = some (Out.line "") ∧ s.received = s.emitted := by
  constructor
  · rw [h.stdout_eq]
    simp [he]
  · rcases h.exit_cases with h0 | ⟨_, _, hq⟩ | ⟨h2, _⟩
    · simp [he] at h0
    · simp [h.fifo, hq]
    · simp [he] at h2

theorem run_closed_exits (lib : Stdlib) (more : List Action) (s : Proc) (h : Inv lib s)
    (hc : s.closed = true)
    (hn : s.exit = some 0 ∨ s.hpCh.length + 1 ≤ more.count .recv) :
    (run lib s more).exit = some 0 := by
  induction more generalizing s with
  | nil =>
    rcases hn with hn | hn
    · exact hn
    · simp at hn
  | cons a more ih =>
    rw [run_cons]
    by_cases he : s.exit = some 0
    · rw [step_of_exit lib s a (by simp [he])]
      exact ih s h hc (Or.inl he)
    · have hcount : s.hpCh.length + 1 ≤ (a :: more).count .recv := by
        rcases hn with hn | hn
        · exact absurd hn he
        · exact hn
      have hp : s.prober = .returned := h.closed_iff.mp hc
      have hrun : s.exit = none := by
        rcases h.exit_cases with h0 | ⟨h0, _⟩ | ⟨_, h2⟩
        · exact h0
        · exact absurd h0 he
        · rw [hp] at h2
          cases h2
      have hc2 := (step_closed lib s a h hc).1
      by_cases ha : a = .recv
      · subst ha
        have hstep : step lib s .recv = mainLoop lib s := by
          simp [step, hrun]
        cases hq : s.hpCh with
        | nil =>
          refine ih _ (inv_step lib s _ h) hc2 (Or.inl ?_)
          rw [hstep]
          simp [mainLoop, hq, hc]
        | cons x xs =>
          refine ih _ (inv_step lib s _ h) hc2 (Or.inr ?_)
          have hcap := h.cap
          rw [hq] at hcap hcount
          have hxs : xs = [] := by simpa using hcap
          subst hxs
          rw [hstep]
          simp only [mainLoop, hq]
          simp only [List.length_nil, List.length_cons, List.count_cons_self] at hcount ⊢
          omega
      · have hstep := step_of_returned lib s a hp ha
        rw [hstep]
        refine ih s h hc (Or.inr ?_)
        have hne : (a == Action.recv) = false := by
          simpa using ha
        rw [List.count_cons, hne] at hcount
        simpa using hcount

/-- C8: when the `select` takes the cancellation case the goroutine closes
`hpCh` and returns, emitting nothing; once `hpCh` is closed in a run the
goroutine has returned and, whatever the schedule does afterwards, `hpCh`
stays closed and no further tick is taken or sample emitted; and as soon as
`main` has had two turns of its loop it has received every emitted sample,
left the loop, printed a blank line as its last output and exited with
status 0. -/
theorem cancellation_closes_and_main_exits (lib : Stdlib) (args : List String)
    (acts : List Action) (hclosed : (run lib (main lib args) acts).closed = true) :
    (∀ s : Proc, s.prober = .selecting → s.exit = none →
      (step lib s .done).closed = true ∧ (step lib s .done).prober = .returned ∧
      (step lib s .done).emitted = s.emitted) ∧
    (run lib (main lib args) acts).prober = .returned ∧
    (∀ more : List Action,
      (run lib (main lib args) (acts ++ more)).closed = true ∧
      (run lib (main lib args) (acts ++ more)).prober = .returned ∧
      (run lib (main lib args) (acts ++ more)).emitted = (run lib (main lib args) acts).emitted ∧
      (run lib (main lib args) (acts ++ more)).ticks = (run lib (main lib args) acts).ticks) ∧
    (∀ more : List Action, 2 ≤ more.count .recv →
      (run lib (main lib args) (acts ++ more)).exit = some 0 ∧
      (run lib (main lib args) (acts ++ more)).stdout.getLast? = some (Out.line "") ∧
      (run lib (main lib args) (acts ++ more)).received
        = (run lib (main lib args) acts).emitted) := by
  have hinv0 : Inv lib (main lib args) := by
    rcases hp : parseArgs lib args with ⟨u, d, err⟩
    cases err with
    | none => exact inv_main lib args u d hp
    | some e =>
      exfalso
      have hm := main_of_error lib args e (by rw [hp])
      have hrun := run_of_exit lib { Proc.boot with stdout := [Out.line e], exit := some 1 }
        acts rfl
      rw [hm, hrun] at hclosed
      simp [Proc.boot] at hclosed
  have hinv : Inv lib (run lib (main lib args) acts) := inv_run lib acts _ hinv0
  refine ⟨fun s hsel hrun => ?_, hinv.closed_iff.mp hclosed, fun more => ?_,
    fun more hmore => ?_⟩
  · simp [step, hrun, httpinger, hsel]
  · rw [run_append]
    obtain ⟨k1, k2, k3⟩ := run_closed lib more _ hinv hclosed
    exact ⟨k1, (inv_run lib more _ hinv).closed_iff.mp k1, k2, k3⟩
  · rw [run_append]
    have hcap := hinv.cap
    have hexit := run_closed_exits lib more _ hinv hclosed (Or.inr (by omega))
    obtain ⟨k1, k2⟩ := exited_ok lib _ (inv_run lib more _ hinv) hexit
    exact ⟨hexit, k1, k2.trans (run_closed lib more _ hinv hclosed).2.1⟩


/-- Witness of C8: `httping https://example.com 1s`, one sample emitted, then
cancellation; `main` then takes two turns. -/
theorem cancellation_closes_and_main_exits_witness :
    (run tableLib (main tableLib ["httping", "https://example.com", "1s"])
      [.tick 0 { resp := some { StatusCode := 200 }, err := none } 50000000, .send, .done]).closed
      = true ∧
    (run tableLib (main tableLib ["httping", "https://example.com", "1s"])
      ([.tick 0 { resp := some { StatusCode := 200 }, err := none } 50000000, .send, .done]
        ++ [.recv, .recv])).exit = some 0 :=
  ⟨by decide,
   ((cancellation_closes_and_main_exits tableLib ["httping", "https://example.com", "1s"]
      [.tick 0 { resp := some { StatusCode := 200 }, err := none } 50000000, .send, .done]
      (by decide)).2.2.2 [.recv, .recv] (by decide)).1⟩

/-! ## A request that fails -/

/-- C4, the code at the failing input: when the goroutine is at its `select`
and the tick's request returns an error and no response, the error is logged,
the goroutine then stops at `resp.StatusCode` on the nil response, no sample is
built or emitted for the tick, the process ends with status 2 and no later
move changes anything. -/
theorem failed_request_panics (lib : Stdlib) (s : Proc) (start fin : Time) (e : String)
    (hsel : s.prober = .selecting) (hrun : s.exit = none) :
    (step lib s (.tick start { resp := none, err := some e } fin)).log = s.log ++ [e] ∧
    (step lib s (.tick start { resp := none, err := some e } fin)).prober = .panicked ∧
    (step lib s (.tick start { resp := none, err := some e } fin)).exit = some 2 ∧
    (step lib s (.tick start { resp := none, err := some e } fin)).emitted = s.emitted ∧
    (step lib s (.tick start { resp := none, err := some e } fin)).hpCh = s.hpCh ∧
    ∀ more : List Action,
      run lib (step lib s (.tick start { resp := none, err := some e } fin)) more
        = step lib s (.tick start { resp := none, err := some e } fin) := by
  have hstep : step lib s (.tick start { resp := none, err := some e } fin)
      = { s with ticks := s.ticks ++ [{ resp := none, err := some e }], log := s.log ++ [e],
                 prober := .panicked, exit := some 2 } := by
    simp [step, hrun, httpinger, hsel]
  rw [hstep]
  refine ⟨rfl, rfl, rfl, rfl, rfl, fun more => run_of_exit lib _ more rfl⟩

/-- Witness of C4: the first tick of `httping https://example.com 1s` fails. -/
theorem failed_request_panics_witness :
    (step tableLib (main tableLib ["httping", "https://example.com", "1s"])
      (.tick 0 { resp := none, err := some "connection refused" } 1000)).exit = some 2 ∧
    (step tableLib (main tableLib ["httping", "https://example.com", "1s"])
      (.tick 0 { resp := none, err := some "connection refused" } 1000)).emitted = [] :=
  ⟨(failed_request_panics tableLib (main tableLib ["httping", "https://example.com", "1s"])
      0 1000 "connection refused" (by decide) (by decide)).2.2.1,
   (failed_request_panics tableLib (main tableLib ["httping", "https://example.com", "1s"])
      0 1000 "connection refused" (by decide) (by decide)).2.2.2.1⟩

/-- C9, the code at the failing input: with a strictly increasing clock, after
a tick that succeeds and a tick whose request fails the loop has handled two
ticks and emitted one sample, and the process has ended with status 2. -/
theorem failed_tick_emits_no_sample :
    (run tableLib (main tableLib ["httping", "https://example.com", "1s"])
      [.tick 1000000000 { resp := some { StatusCode := 200 }, err := none } 1050000000,
       .send, .recv,
       .tick 2000000000 { resp := none, err := some "connection refused" } 2000400000]).ticks.length
      = 2 ∧
    (run tableLib (main tableLib ["httping", "https://example.com", "1s"])
      [.tick 1000000000 { resp := some { StatusCode := 200 }, err := none } 1050000000,
       .send, .recv,
       .tick 2000000000 { resp := none, err := some "connection refused" } 2000400000]).emitted
      = [{ Timestamp := 1000000000, StatusCode := 200, Latency := 50000000 }] ∧
    (run tableLib (main tableLib ["httping", "https://example.com", "1s"])
      [.tick 1000000000 { resp := some { StatusCode := 200 }, err := none } 1050000000,
       .send, .recv,
       .tick 2000000000 { resp := none, err := some "connection refused" } 2000400000]).exit
      = some 2 := by
  decide

/-! ## The rows on standard output -/

/-- C7, the code at the failing input: with valid arguments, when the loop
observes cancellation before the first tick, `main` leaves its loop without a
flush: standard output holds the blank line only, the header is still in the
buffer of the CSV writer, and the process has exited with status 0. -/
theorem header_lost_without_sample (lib : Stdlib) (args : List String) (u : String)
    (d : Duration) (h : parseArgs lib args = (u, d, none)) :
    (run lib (main lib args) [.done, .recv]).stdout = [Out.line ""] ∧
    (run lib (main lib args) [.done, .recv]).pending = [header] ∧
    (run lib (main lib args) [.done, .recv]).received = [] ∧
    (run lib (main lib args) [.done, .recv]).exit = some 0 := by
  rw [main_of_ok lib args u d h]
  simp [run, step, httpinger, mainLoop, Proc.boot]

/-- Witness of C7: `httping https://example.com 1s` interrupted before the
first tick. -/
theorem header_lost_without_sample_witness :
    (run tableLib (main tableLib ["httping", "https://example.com", "1s"])
      [.done, .recv]).stdout = [Out.line ""] :=
  (header_lost_without_sample tableLib ["httping", "https://example.com", "1s"]
    "https://example.com" 1000000000 rfl).1

/-- In every state of a run with valid arguments: once `main` has received a
sample, standard output is the header followed by one row per received
sample, in order of reception (then the blank line once `main` has left its
loop), and nothing is buffered; until then the header is in the buffer of the
CSV writer and standard output holds at most the blank line. -/
theorem records_written (lib : Stdlib) (args : List String) (u : String) (d : Duration)
    (h : parseArgs lib args = (u, d, none)) (acts : List Action) :
    ((run lib (main lib args) acts).received ≠ [] →
      (run lib (main lib args) acts).stdout
        = (header :: (run lib (main lib args) acts).received.map (HTTPing.SSlice lib)).map
            Out.record
          ++ (if (run lib (main lib args) acts).exit = some 0 then [Out.line ""] else []) ∧
      (run lib (main lib args) acts).pending = []) ∧
    ((run lib (main lib args) acts).received = [] →
      (run lib (main lib args) acts).stdout
        = (if (run lib (main lib args) acts).exit = some 0 then [Out.line ""] else []) ∧
      (run lib (main lib args) acts).pending = [header]) ∧
    (run lib (main lib args) acts).emitted
      = (run lib (main lib args) acts).received ++ (run lib (main lib args) acts).hpCh := by
  have hinv := inv_run lib acts _ (inv_main lib args u d h)
  refine ⟨fun hr => ?_, fun hr => ?_, hinv.fifo⟩
  · rw [hinv.stdout_eq, hinv.pending_eq]
    simp [hr]
  · rw [hinv.stdout_eq, hinv.pending_eq]
    simp [hr]

/-! ## Row formatting -/

theorem digitChar_eq (d : Nat) : digitChar d = Nat.digitChar (d % 10) := by
  have hlt : d % 10 < 10 := Nat.mod_lt _ (by decide)
  unfold digitChar
  generalize d % 10 = k at hlt
  interval_cases k <;> rfl

theorem fmtDigits_eq_toDigitsCore (v : Nat) :
    ∀ (f1 f2 : Nat) (buf : List Char), 0 < v → v ≤ f1 → v ≤ f2 →
      fmtDigits f1 v buf = Nat.toDigitsCore 10 f2 v buf := by
  induction v using Nat.strong_induction_on with
  | _ v ih =>
    intro f1 f2 buf hv h1 h2
    obtain ⟨g1, rfl⟩ : ∃ g, f1 = g + 1 := ⟨f1 - 1, by omega⟩
    obtain ⟨g2, rfl⟩ : ∃ g, f2 = g + 1 := ⟨f2 - 1, by omega⟩
    have hv0 : v ≠ 0 := by omega
    simp only [fmtDigits, Nat.toDigitsCore, hv0, if_false]
    rw [digitChar_eq, Nat.mod_mod]
    by_cases hq : v / 10 = 0
    · simp only [hq, if_true]
      cases g1 <;> simp [fmtDigits]
    · simp only [hq, if_false]
      have hlt : v / 10 < v := Nat.div_lt_self hv (by decide)
      exact ih (v / 10) hlt g1 g2 _ (by omega) (by omega) (by omega)

theorem fmtInt_eq_toDigits (v : Nat) : fmtInt [] v = Nat.toDigits 10 v := by
  unfold fmtInt Nat.toDigits
  by_cases hv : v = 0
  · subst hv
    rfl
  · simp only [hv, if_false]
    exact fmtDigits_eq_toDigitsCore v v (v + 1) [] (by omega) (by omega) (by omega)

theorem Itoa_eq_toString (i : Int) : Itoa i = toString i := by
  unfold Itoa
  cases i with
  | ofNat m =>
    have h : ¬ Int.ofNat m < 0 := by simp
    simp only [h, if_false, Int.natAbs_ofNat, fmtInt_eq_toDigits]
    rfl
  | negSucc m =>
    have h : Int.negSucc m < 0 := Int.negSucc_lt_zero m
    simp only [h, if_true, Int.natAbs_negSucc, fmtInt_eq_toDigits]
    rfl

theorem durationTruncate_Millisecond (d : Duration) :
    durationTruncate d Millisecond = d.tdiv 1000000 * 1000000 := by
  have hm : Millisecond = 1000000 := by decide
  unfold durationTruncate
  rw [hm]
  have h := Int.tmod_add_tdiv d 1000000
  simp only [show ¬ ((1000000 : Int) ≤ 0) by decide, if_false]
  linarith

/-- C6: for every sample `SSlice` returns exactly three fields, in the order
timestamp, status code, latency: the `StampMilli` format of `Timestamp`, the
decimal rendering of `StatusCode`, and the duration string of `Latency`
rounded toward zero to a whole number of milliseconds; 123.456789 ms renders
as `123ms` and 1.2049 s as `1.204s`. -/
theorem SSlice_fields (lib : Stdlib) (hp : HTTPing) :
    hp.SSlice lib =
      [lib.formatStampMilli hp.Timestamp,
       toString hp.StatusCode,
       durationString (hp.Latency.tdiv 1000000 * 1000000)] ∧
    (hp.SSlice lib).length = 3 ∧
    (HTTPing.SSlice lib { hp with Latency := 123456789 }).get? 2 = some "123ms" ∧
    (HTTPing.SSlice lib { hp with Latency := 1204900000 }).get? 2 = some "1.204s" := by
  refine ⟨?_, rfl, ?_, ?_⟩
  · simp [HTTPing.SSlice, Itoa_eq_toString, durationTruncate_Millisecond]
  · have h : durationString (durationTruncate 123456789 Millisecond) = "123ms" := by decide
    simp [HTTPing.SSlice, h]
  · have h : durationString (durationTruncate 1204900000 Millisecond) = "1.204s" := by decide
    simp [HTTPing.SSlice, h]


/-! ## Successful responses -/

theorem healthy_step (lib : Stdlib) (s : Proc) (a : Action) (h : Healthy s)
    (ha : a.successful = true) : Healthy (step lib s a) := by
  obtain ⟨h1, h2, h3, h4⟩ := h
  have hx : s.exit.isSome = false := by simp [h1]
  cases a with
  | done => simp [Action.successful] at ha
  | recv =>
    simp only [step, hx, Bool.false_eq_true, if_false, mainLoop]
    cases hq : s.hpCh with
    | nil => simpa [h2] using (⟨h1, h2, h3, h4⟩ : Healthy s)
    | cons x xs => exact ⟨h1, h2, h3, h4⟩
  | send =>
    simp only [step, hx, Bool.false_eq_true, if_false, httpinger]
    rcases h3 with h3 | ⟨hp, h3⟩
    · simpa [h3] using (⟨h1, h2, Or.inl h3, h4⟩ : Healthy s)
    · simp only [h3]
      by_cases hfull : s.hpCh.length < 1
      · simp only [hfull, if_true]
        exact ⟨h1, h2, Or.inl rfl, h4⟩
      · simp only [hfull, if_false]
        exact ⟨h1, h2, Or.inr ⟨hp, h3⟩, h4⟩
  | tick start r fin =>
    rcases r with ⟨resp, err⟩
    simp only [Action.successful, Bool.and_eq_true, Option.isNone_iff_eq_none] at ha
    obtain ⟨he, hr⟩ := ha
    subst he
    obtain ⟨rp, rfl⟩ := Option.isSome_iff_exists.mp hr
    simp only [step, hx, Bool.false_eq_true, if_false, httpinger]
    rcases h3 with h3 | ⟨hp, h3⟩
    · simp only [h3]
      refine ⟨h1, h2, Or.inr ⟨_, rfl⟩, ?_⟩
      intro r hmem
      simp only [List.mem_append, List.mem_singleton] at hmem
      rcases hmem with hmem | rfl
      · exact h4 r hmem
      · exact ⟨rfl, rfl⟩
    · simpa [h3] using (⟨h1, h2, Or.inr ⟨hp, h3⟩, h4⟩ : Healthy s)

theorem healthy_run (lib : Stdlib) (acts : List Action) (s : Proc) (h : Healthy s)
    (ha : ∀ a ∈ acts, a.successful = true) : Healthy (run lib s acts) := by
  induction acts generalizing s with
  | nil => exact h
  | cons a acts ih =>
    rw [run_cons]
    exact ih _ (healthy_step lib s a h (ha a (List.mem_cons_self a acts)))
      (fun b hb => ha b (List.mem_cons_of_mem a hb))

theorem codes_of_ok (ticks : List GetResult)
    (h : ∀ r ∈ ticks, r.err = none ∧ r.resp.isSome = true) :
    (ticks.filterMap (fun r => r.resp)).map (fun resp => resp.StatusCode)
      = ticks.map GetResult.code := by
  induction ticks with
  | nil => rfl
  | cons r rest ih =>
    have hr := (h r (List.mem_cons_self r rest)).2
    obtain ⟨rp, hrp⟩ := Option.isSome_iff_exists.mp hr
    have ih2 := ih (fun x hx => h x (List.mem_cons_of_mem r hx))
    simp [List.filterMap_cons, hrp, GetResult.code, ih2]

theorem round_step (lib : Stdlib) (s : Proc) (t : Time × Int × Time)
    (hsel : s.prober = .selecting) (hq : s.hpCh = []) (hrun : s.exit = none) :
    (run lib s (rounds [t])).prober = .selecting ∧
    (run lib s (rounds [t])).hpCh = [] ∧
    (run lib s (rounds [t])).exit = none ∧
    (run lib s (rounds [t])).emitted = s.emitted ++ [sampleOf t] ∧
    (run lib s (rounds [t])).received = s.received ++ [sampleOf t] ∧
    (run lib s (rounds [t])).ticks
      = s.ticks ++ [{ resp := some { StatusCode := t.2.1 }, err := none }] := by
  obtain ⟨start, code, fin⟩ := t
  simp [rounds, run, step, httpinger, mainLoop, hsel, hq, hrun, sampleOf]

theorem rounds_cons (t : Time × Int × Time) (rest : List (Time × Int × Time)) :
    rounds (t :: rest) = rounds [t] ++ rounds rest := by
  obtain ⟨start, code, fin⟩ := t
  simp [rounds]

theorem rounds_run (lib : Stdlib) (rs : List (Time × Int × Time)) (s : Proc)
    (hsel : s.prober = .selecting) (hq : s.hpCh = []) (hrun : s.exit = none) :
    (run lib s (rounds rs)).prober = .selecting ∧
    (run lib s (rounds rs)).hpCh = [] ∧
    (run lib s (rounds rs)).exit = none ∧
    (run lib s (rounds rs)).emitted = s.emitted ++ rs.map sampleOf ∧
    (run lib s (rounds rs)).received = s.received ++ rs.map sampleOf ∧
    (run lib s (rounds rs)).ticks
      = s.ticks ++ rs.map (fun t => { resp := some { StatusCode := t.2.1 }, err := none }) := by
  induction rs generalizing s with
  | nil => simp [rounds, run_nil, hsel, hq, hrun]
  | cons t rest ih =>
    obtain ⟨k1, k2, k3, k4, k5, k6⟩ := round_step lib s t hsel hq hrun
    obtain ⟨j1, j2, j3, j4, j5, j6⟩ := ih (run lib s (rounds [t])) k1 k2 k3
    rw [rounds_cons, run_append]
    refine ⟨j1, j2, j3, ?_, ?_, ?_⟩
    · rw [j4, k4]; simp
    · rw [j5, k5]; simp
    · rw [j6, k6]; simp

/-- C5: with valid arguments, (1) in every schedule without cancellation in
which every request returns a response and no error, the status codes of the
responses of the ticks taken are, in order and one for one, the status codes
of the samples emitted followed by that of the sample being sent, nothing is
logged and the process keeps running; (2) for every finite sequence of
successful ticks, when each tick is followed by its send and its receive the
samples emitted are exactly one per tick, in order, each with the start time,
the status code and the latency of its tick, and `main` has received them
all. -/
theorem status_codes_follow_responses (lib : Stdlib) (args : List String) (u : String)
    (d : Duration) (h : parseArgs lib args = (u, d, none)) :
    (∀ acts : List Action, (∀ a ∈ acts, a.successful = true) →
      (run lib (main lib args) acts).ticks.map GetResult.code
        = ((run lib (main lib args) acts).emitted
            ++ inFlight (run lib (main lib args) acts).prober).map (fun hp => hp.StatusCode) ∧
      (run lib (main lib args) acts).log = [] ∧
      (run lib (main lib args) acts).exit = none) ∧
    (∀ rs : List (Time × Int × Time),
      (run lib (main lib args) (rounds rs)).emitted = rs.map sampleOf ∧
      (run lib (main lib args) (rounds rs)).emitted.map (fun hp => hp.StatusCode)
        = rs.map (fun t => t.2.1) ∧
      (run lib (main lib args) (rounds rs)).received = rs.map sampleOf ∧
      (run lib (main lib args) (rounds rs)).ticks.length = rs.length ∧
      inFlight (run lib (main lib args) (rounds rs)).prober = []) := by
  have hm := main_of_ok lib args u d h
  constructor
  · intro acts hacts
    have hinv := inv_run lib acts _ (inv_main lib args u d h)
    have h0 : Healthy (main lib args) := by
      rw [hm]
      exact ⟨rfl, rfl, Or.inl rfl, by simp [Proc.boot]⟩
    have hh := healthy_run lib acts _ h0 hacts
    refine ⟨?_, ?_, hh.running⟩
    · rw [← codes_of_ok _ hh.ticks_ok]
      exact hinv.codes
    · rw [hinv.log_eq]
      apply List.filterMap_eq_nil_iff.mpr
      intro r hr
      exact (hh.ticks_ok r hr).1
  · intro rs
    obtain ⟨k1, k2, k3, k4, k5, k6⟩ := rounds_run lib rs (main lib args)
      (by rw [hm]; rfl) (by rw [hm]; rfl) (by rw [hm]; rfl)
    have e0 : (main lib args).emitted = [] := by rw [hm]; rfl
    have r0 : (main lib args).received = [] := by rw [hm]; rfl
    have t0 : (main lib args).ticks = [] := by rw [hm]; rfl
    rw [e0] at k4
    rw [r0] at k5
    rw [t0] at k6
    simp only [List.nil_append] at k4 k5 k6
    refine ⟨k4, ?_, k5, ?_, ?_⟩
    · rw [k4]
      simp [sampleOf]
    · rw [k6]
      simp
    · rw [k1]
      rfl

/-- Witness of C5: responses 200, 500, 200 on three successive ticks of
`httping https://example.com 1s` yield the status codes 200, 500, 200. -/
theorem status_codes_follow_responses_witness :
    (run tableLib (main tableLib ["httping", "https://example.com", "1s"])
      (rounds [(1000000000, 200, 1050000000), (2000000000, 500, 2050000000),
        (3000000000, 200, 3050000000)])).emitted.map (fun hp => hp.StatusCode)
      = [200, 500, 200] :=
  ((status_codes_follow_responses tableLib ["httping", "https://example.com", "1s"]
      "https://example.com" 1000000000 rfl).2
    [(1000000000, 200, 1050000000), (2000000000, 500, 2050000000),
      (3000000000, 200, 3050000000)]).2.1


/-! ## Timestamps -/

theorem stamps_step (lib : Stdlib) (s : Proc) (a : Action) :
    stamps (step lib s a) = stamps s ∨
      ∃ start r fin, a = .tick start r fin ∧ stamps (step lib s a) = stamps s ++ [start] := by
  unfold step
  by_cases hx : s.exit.isSome = true
  · left; simp [hx]
  · simp only [hx, Bool.false_eq_true, if_false]
    cases a with
    | recv =>
      left
      unfold mainLoop
      cases hq : s.hpCh with
      | nil =>
        by_cases hc : s.closed = true
        · simp [hc, stamps]
        · simp [hc, stamps]
      | cons x xs => simp [stamps]
    | done =>
      left
      unfold httpinger
      cases hp : s.prober <;> simp [stamps, inFlight, hp]
    | send =>
      left
      unfold httpinger
      cases hp : s.prober with
      | sending hp0 =>
        by_cases hfull : s.hpCh.length < 1
        · simp [stamps, inFlight, hp, hfull]
        · simp [stamps, inFlight, hp, hfull]
      | selecting => simp [stamps, inFlight, hp]
      | returned => simp [stamps, inFlight, hp]
      | panicked => simp [stamps, inFlight, hp]
    | tick start r fin =>
      unfold httpinger
      cases hp : s.prober with
      | sending hp0 => left; simp [stamps, inFlight, hp]
      | returned => left; simp [stamps, inFlight, hp]
      | panicked => left; simp [stamps, inFlight, hp]
      | selecting =>
        rcases r with ⟨resp, err⟩
        cases resp with
        | none => left; cases err <;> simp [stamps, inFlight, hp]
        | some rp =>
          right
          refine ⟨start, _, fin, rfl, ?_⟩
          cases err <;> simp [stamps, inFlight, hp]

theorem clock_tail_subset (a : Action) (rest : List Action) :
    ∀ c ∈ clock rest, c ∈ clock (a :: rest) := by
  intro c hc
  cases a <;> simp [clock, hc]

theorem clock_tail_pairwise (a : Action) (rest : List Action)
    (h : (clock (a :: rest)).Pairwise (fun x y => x < y)) :
    (clock rest).Pairwise (fun x y => x < y) := by
  cases a with
  | tick start r fin =>
    simp only [clock, List.pairwise_cons] at h
    exact h.2.2
  | done => simpa [clock] using h
  | send => simpa [clock] using h
  | recv => simpa [clock] using h

theorem stamps_run (lib : Stdlib) (acts : List Action) (s : Proc)
    (hs : (stamps s).Pairwise (fun x y => x < y))
    (hb : ∀ t ∈ stamps s, ∀ c ∈ clock acts, t < c)
    (hc : (clock acts).Pairwise (fun x y => x < y)) :
    (stamps (run lib s acts)).Pairwise (fun x y => x < y) := by
  induction acts generalizing s with
  | nil => exact hs
  | cons a rest ih =>
    rw [run_cons]
    have hc2 := clock_tail_pairwise a rest hc
    rcases stamps_step lib s a with hsame | ⟨start, r, fin, rfl, happ⟩
    · refine ih _ (by rw [hsame]; exact hs) ?_ hc2
      intro t ht c hcm
      rw [hsame] at ht
      exact hb t ht c (clock_tail_subset a rest c hcm)
    · simp only [clock, List.pairwise_cons] at hc
      refine ih _ ?_ ?_ hc2
      · rw [happ, List.pairwise_append]
        refine ⟨hs, List.pairwise_singleton _ _, ?_⟩
        intro t ht c hcm
        rw [List.mem_singleton] at hcm
        subst hcm
        exact hb t ht _ (by simp [clock])
      · intro t ht c hcm
        rw [happ, List.mem_append, List.mem_singleton] at ht
        rcases ht with ht | rfl
        · exact hb t ht c (by simp [clock, hcm])
        · exact hc.1 c (by simp [hcm])

/-- In every run with valid arguments whose clock readings strictly increase,
the samples emitted have strictly increasing timestamps in emission order,
and the ticks taken are as many as the samples emitted, plus one while a
sample is being sent, plus one when the goroutine has stopped on a failed
request. -/
theorem samples_follow_clock (lib : Stdlib) (args : List String) (u : String) (d : Duration)
    (h : parseArgs lib args = (u, d, none)) (acts : List Action)
    (hc : (clock acts).Pairwise (fun x y => x < y)) :
    ((run lib (main lib args) acts).emitted.map (fun hp => hp.Timestamp)).Pairwise
        (fun x y => x < y) ∧
    (run lib (main lib args) acts).ticks.length
      = (run lib (main lib args) acts).emitted.length
        + (inFlight (run lib (main lib args) acts).prober).length
        + (if (run lib (main lib args) acts).prober = .panicked then 1 else 0) := by
  have hinv := inv_run lib acts _ (inv_main lib args u d h)
  have h0 : stamps (main lib args) = [] := by
    rw [main_of_ok lib args u d h]
    rfl
  have hp := stamps_run lib acts (main lib args) (by rw [h0]; exact List.Pairwise.nil)
    (by rw [h0]; intro t ht; cases ht) hc
  refine ⟨?_, hinv.count⟩
  unfold stamps at hp
  rw [List.map_append, List.pairwise_append] at hp
  exact hp.1

end Httping
